import Mathlib

/-!
A shallow embedding of the core of `tiny-raytracer` (files `src/math.rs`,
`src/material.rs`, `src/object.rs`, `src/scene.rs`) and proofs about it.

Modelling conventions, used throughout:

* `f32` values are idealized as elements of an arbitrary linear ordered
  field `K` (exact arithmetic; IEEE-754 rounding, `NaN` and signed zero are
  outside this model).  Under this idealization `f32::is_sign_negative`
  becomes `x < 0` and `f32::is_sign_positive` becomes `0 ≤ x`.
* The two transcendental primitives the code uses, `f32::sqrt` and
  `f32::powf`, are carried as explicit function parameters `sq : K → K`
  and `powf : K → K → K`; theorems that need properties of the square
  root state them as hypotheses on `sq`.
* `u32` is modelled as `ℕ` (the code only counts recursion depth down to
  zero with it and compares cell counts, never overflows).
* `nalgebra::Vector3<f32>` and the color array `[f32; 3]` are both
  modelled by `Vec3 K`; Rust's `Option` by Lean's `Option`.
* `Vec<T>` / slices are modelled by `List`; `sort_unstable_by` with the
  comparator `b.dist.partial_cmp(&a.dist).unwrap()` (a descending sort by
  distance, total on non-NaN floats) is modelled by `List.mergeSort` with
  the boolean relation `b.dist ≤ a.dist`, and `Vec::pop` of the sorted
  vector by `List.getLast?`.
-/

namespace TinyRay

/-- `nalgebra::Vector3<f32>` (also used for `[f32; 3]` color triples). -/
structure Vec3 (K : Type) where
  x : K
  y : K
  z : K
deriving DecidableEq, Repr

namespace Vec3

variable {K : Type} [LinearOrderedField K]

instance : Add (Vec3 K) where
  add v w := ⟨v.x + w.x, v.y + w.y, v.z + w.z⟩

instance : Sub (Vec3 K) where
  sub v w := ⟨v.x - w.x, v.y - w.y, v.z - w.z⟩

instance : Neg (Vec3 K) where
  neg v := ⟨-v.x, -v.y, -v.z⟩

/-- `nalgebra::zero()` / `Vector3::from([0.0, 0.0, 0.0])`. -/
instance : Zero (Vec3 K) where
  zero := ⟨0, 0, 0⟩

/-- Scalar-on-the-left product `c * v` (nalgebra `f32 * Vector3<f32>`). -/
instance : SMul K (Vec3 K) where
  smul c v := ⟨c * v.x, c * v.y, c * v.z⟩

/-- Vector-on-the-left product `v * c` (nalgebra `Vector3<f32> * f32`). -/
def scale (v : Vec3 K) (c : K) : Vec3 K := ⟨v.x * c, v.y * c, v.z * c⟩

/-- Componentwise division by a scalar, `v / c` (nalgebra
`Vector3<f32> / f32`, also `/=`). -/
def divScalar (v : Vec3 K) (c : K) : Vec3 K := ⟨v.x / c, v.y / c, v.z / c⟩

/-- `Vector3::dot`. -/
def dot (v w : Vec3 K) : K := v.x * w.x + v.y * w.y + v.z * w.z

/-- `Vector3::cross`. -/
def cross (v w : Vec3 K) : Vec3 K :=
  ⟨v.y * w.z - v.z * w.y, v.z * w.x - v.x * w.z, v.x * w.y - v.y * w.x⟩

/-- `Vector3::norm()`: the square root of the dot product with itself. -/
def norm (sq : K → K) (v : Vec3 K) : K := sq (dot v v)

/-- `Vector3::normalize()`: the vector divided by its norm. -/
def normalize (sq : K → K) (v : Vec3 K) : Vec3 K := divScalar v (norm sq v)

/-- nalgebra's `.max()`: the greatest component. -/
def compMax (v : Vec3 K) : K := max (max v.x v.y) v.z

end Vec3

/-! ## `src/material.rs`

`src/object.rs` (the older snapshot) declares a second, field-for-field
identical copy of `Material`, `Diffuse`, `DiffuseKind`, `Specular` and
`Refract`; both copies are modelled by the single family below. -/

/-- `enum DiffuseKind { Color([f32; 3]) }`. -/
inductive DiffuseKind (K : Type) where
| color (rgb : Vec3 K)
deriving DecidableEq, Repr

/-- `struct Diffuse`. -/
structure Diffuse (K : Type) where
  kind : DiffuseKind K
  albedo : K
deriving DecidableEq, Repr

/-- `struct Specular`. -/
structure Specular (K : Type) where
  specular_exp : K
  albedo : K
deriving DecidableEq, Repr

/-- `struct Refract`. -/
structure Refract (K : Type) where
  index : K
  albedo : K
deriving DecidableEq, Repr

/-- `struct Material`: four independent optional components. -/
structure Material (K : Type) where
  diffuse : Option (Diffuse K)
  specular : Option (Specular K)
  reflect : Option K
  refract : Option (Refract K)
deriving DecidableEq, Repr

namespace Material

variable {K : Type} [LinearOrderedField K]

/-- `Material::none()`. -/
def none : Material K := ⟨Option.none, Option.none, Option.none, Option.none⟩

/-- `Material::color(diffuse, albedo)`. -/
def color (diffuse : Vec3 K) (albedo : K) : Material K :=
  ⟨Option.some ⟨DiffuseKind.color diffuse, albedo⟩, Option.none, Option.none, Option.none⟩

/-- `Material::with_specular(self, specular_exp, albedo)`. -/
def with_specular (m : Material K) (specular_exp albedo : K) : Material K :=
  { m with specular := Option.some ⟨specular_exp, albedo⟩ }

/-- `Material::with_reflect(self, albedo)`. -/
def with_reflect (m : Material K) (albedo : K) : Material K :=
  { m with reflect := Option.some albedo }

/-- `Material::with_refract(self, index, albedo)`. -/
def with_refract (m : Material K) (index albedo : K) : Material K :=
  { m with refract := Option.some ⟨index, albedo⟩ }

end Material

/-! ## `src/math.rs` -/

variable {K : Type} [LinearOrderedField K]

/-- `math::reflect(a, n) = a - a.dot(&n) * 2.0 * n`. -/
def reflect (a n : Vec3 K) : Vec3 K := a - (Vec3.dot a n * 2) • n

/-- One branch of `math::refract`, for the case where the incidence cosine
`cos_i = -i.dot(&n)` is not negative.  (`refract` below handles the
sign-negative case by the recursive call of the source, which flips the
normal and swaps the indices; the callee then takes this branch.) -/
def refractPos (sq : K → K) (i n : Vec3 K) (ni nr : K) : Vec3 K :=
  let cos_i := -(Vec3.dot i n)
  let eta := ni / nr
  let cos_r_sq := 1 - eta * eta * (1 - cos_i * cos_i)
  if cos_r_sq < 0 then
    -- total reflection
    -(reflect i n)
  else
    (Vec3.scale i eta) + (Vec3.scale n (eta * cos_i - sq cos_r_sq))

/-- `math::refract(i, n, ni, nr)`.  The source recurses once (with the
normal flipped and the indices swapped) when `cos_i.is_sign_negative()`;
since the flipped call's cosine is then positive, that call takes the
non-recursive branch, so the recursion is inlined here as a single
unfolding (`refract_matches_spec` below proves the recursive equation the
source writes). -/
def refract (sq : K → K) (i n : Vec3 K) (ni nr : K) : Vec3 K :=
  if -(Vec3.dot i n) < 0 then refractPos sq i (-n) nr ni
  else refractPos sq i n ni nr

/-! ## `src/object.rs`: geometry -/

/-- `struct IntersectionInfo`. -/
structure IntersectionInfo (K : Type) where
  dist : K
  hit : Vec3 K
  normal : Vec3 K
  material : Material K
deriving DecidableEq, Repr

/-- `struct Sphere`. -/
structure Sphere (K : Type) where
  center : Vec3 K
  radius : K
  material : Material K
deriving DecidableEq, Repr

/-- `struct Checkerboard`. -/
structure Checkerboard (K : Type) where
  origin : Vec3 K
  cell_dir : Vec3 K × Vec3 K
  dims : ℕ × ℕ
  material : Material K × Material K
deriving DecidableEq, Repr

/-- `struct Light` (declared identically in both `src/scene.rs` and
`src/object.rs`). -/
structure Light (K : Type) where
  position : Vec3 K
  intensity : K
deriving DecidableEq, Repr

/-- `impl Object for Sphere`: `ray_intersect` (object.rs lines 112-139). -/
def Sphere.ray_intersect (sq : K → K) (s : Sphere K) (orig dir : Vec3 K) :
    Option (IntersectionInfo K) :=
  let dir_1 := Vec3.normalize sq dir
  let radius_sq := s.radius * s.radius
  let vec_to_center := s.center - orig
  let dir_len := Vec3.dot vec_to_center dir_1
  let dist_to_line := Vec3.dot vec_to_center vec_to_center - dir_len * dir_len
  if dist_to_line > radius_sq then Option.none
  else
    let segment_len := sq (radius_sq - dist_to_line)
    let near := dir_len - segment_len
    let far := dir_len + segment_len
    let selected := if near < 0 then far else near
    if selected < 0 then Option.none
    else
      let hit := orig + Vec3.scale dir_1 selected
      Option.some
        { dist := selected
          hit := hit
          normal := Vec3.normalize sq (hit - s.center)
          material := s.material }

/-- `Checkerboard::normal()`: normalized cross product of the two cell
basis vectors. -/
def Checkerboard.normal (sq : K → K) (c : Checkerboard K) : Vec3 K :=
  Vec3.normalize sq (Vec3.cross c.cell_dir.1 c.cell_dir.2)

/-- Rust `f32 as u32`: truncation toward zero, saturating at 0 for
negative inputs.  (The upper saturation bound of `u32` is not modelled,
`u32` being modelled as `ℕ`; every use in the source is guarded so the
value is nonnegative, where the cast agrees with the floor.) -/
def floatToU32 [FloorRing K] (v : K) : ℕ := (⌊v⌋).toNat

/-- `impl Object for Checkerboard`: `ray_intersect` (object.rs
lines 171-202). -/
def Checkerboard.ray_intersect [FloorRing K] (sq : K → K) (c : Checkerboard K)
    (orig dir : Vec3 K) : Option (IntersectionInfo K) :=
  let p := orig - c.origin
  let n := Checkerboard.normal sq c
  let dir := Vec3.normalize sq dir
  let neg_dist := Vec3.dot n p / Vec3.dot n dir
  if 0 ≤ neg_dist then Option.none
  else
    let hit := p - neg_dist • dir
    let len_0 := Vec3.dot hit c.cell_dir.1 / Vec3.dot c.cell_dir.1 c.cell_dir.1
    let len_1 := Vec3.dot hit c.cell_dir.2 / Vec3.dot c.cell_dir.2 c.cell_dir.2
    if len_0 < 0 ∨ len_1 < 0 ∨ (c.dims.1 : K) ≤ len_0 ∨ (c.dims.2 : K) ≤ len_1 then
      Option.none
    else
      let parity := floatToU32 len_0 + floatToU32 len_1
      let hit := hit + c.origin
      let material := if parity % 2 = 0 then c.material.1 else c.material.2
      Option.some
        { dist := -neg_dist
          hit := hit
          normal := n
          material := material }

/-- The trait object `dyn Object`: the two implementers as a closed sum. -/
inductive Object (K : Type) where
| sphere (s : Sphere K)
| checkerboard (c : Checkerboard K)
deriving DecidableEq, Repr

/-- Dynamic dispatch of `Object::ray_intersect`. -/
def Object.ray_intersect [FloorRing K] (sq : K → K) (o : Object K)
    (orig dir : Vec3 K) : Option (IntersectionInfo K) :=
  match o with
  | Object.sphere s => Sphere.ray_intersect sq s orig dir
  | Object.checkerboard c => Checkerboard.ray_intersect sq c orig dir

/-- `const AIR_REFRACTION_INDEX: f32 = 1.0` (declared identically in both
`src/scene.rs` and `src/object.rs`). -/
def AIR_REFRACTION_INDEX : K := 1

/-- The literal `1e-3`, the shadow/secondary ray origin offset. -/
def shadowEps : K := 1 / 1000

/-- The background color `[0.2, 0.7, 0.8]` (the `unwrap_or` fallback of
`Scene::cast_ray` and `render_scene`). -/
def backgroundColor : Vec3 K := ⟨0.2, 0.7, 0.8⟩

/-- The comparator `|a, b| b.dist.partial_cmp(&a.dist).unwrap()` of the
descending-by-distance sort, as a boolean relation ("a may precede b"). -/
def distDescending (a b : IntersectionInfo K) : Bool := decide (b.dist ≤ a.dist)

/-! ## `src/scene.rs` -/

/-- `struct Scene`: the object collection and the light collection. -/
structure Scene (K : Type) where
  objects : List (Object K)
  lights : List (Light K)

/-- `Scene::test_intersect` (scene.rs lines 45-53): intersect every object,
sort descending by distance, pop the last (nearest) hit. -/
def Scene.test_intersect [FloorRing K] (sq : K → K) (scene : Scene K)
    (orig dir : Vec3 K) : Option (IntersectionInfo K) :=
  let intersections :=
    scene.objects.filterMap fun object => Object.ray_intersect sq object orig dir
  (intersections.mergeSort distDescending).getLast?

/-- `Scene::cast_ray` (scene.rs lines 55-161).  The `u32` depth budget is a
`ℕ` matched on: `0` short-circuits the `Option` chain to the background
color before intersecting, and the body's two recursive calls are made at
`recursion_limit - 1`. -/
def Scene.cast_ray [FloorRing K] (sq : K → K) (powf : K → K → K)
    (scene : Scene K) : Vec3 K → Vec3 K → ℕ → Vec3 K
| _, _, 0 => backgroundColor
| orig, dir, n + 1 =>
  ((Scene.test_intersect sq scene orig dir).map fun info =>
    let dir := Vec3.normalize sq dir
    let filtered_lights := scene.lights.filterMap fun light =>
      let raw_light_dir := light.position - info.hit
      let light_dir := Vec3.normalize sq raw_light_dir
      let light_dist := Vec3.norm sq raw_light_dir
      let shadow_orig :=
        if Vec3.dot light_dir info.normal < 0 then
          info.hit - Vec3.scale info.normal shadowEps
        else
          info.hit + Vec3.scale info.normal shadowEps
      match Scene.test_intersect sq scene shadow_orig light_dir with
      | Option.some shadow_info =>
        if shadow_info.dist < light_dist then Option.none
        else Option.some (light_dir, light)
      | Option.none => Option.some (light_dir, light)
    let diffuse_color_vec :=
      match info.material.diffuse with
      | Option.some d =>
        let diffuse_intensity :=
          (filtered_lights.map fun p =>
            p.2.intensity * max 0 (Vec3.dot p.1 info.normal)).sum
        let raw_diffuse_color := match d.kind with | DiffuseKind.color c => c
        Vec3.scale (Vec3.scale raw_diffuse_color diffuse_intensity) d.albedo
      | Option.none => 0
    let specular_color_vec :=
      match info.material.specular with
      | Option.some s =>
        let specular_intensity :=
          (filtered_lights.map fun p =>
            let reflect_dir := reflect p.1 info.normal
            let angle := max 0 (Vec3.dot reflect_dir dir)
            p.2.intensity * powf angle s.specular_exp).sum
        Vec3.scale (Vec3.scale (⟨1, 1, 1⟩ : Vec3 K) specular_intensity) s.albedo
      | Option.none => 0
    let reflect_color_vec :=
      match info.material.reflect with
      | Option.some albedo_reflect =>
        let reflect_dir := reflect dir info.normal
        let reflect_orig :=
          if Vec3.dot reflect_dir info.normal < 0 then
            info.hit - Vec3.scale info.normal shadowEps
          else
            info.hit + Vec3.scale info.normal shadowEps
        Vec3.scale (Scene.cast_ray sq powf scene reflect_orig reflect_dir n)
          albedo_reflect
      | Option.none => 0
    let refract_color_vec :=
      match info.material.refract with
      | Option.some r =>
        let refract_dir := refract sq dir info.normal AIR_REFRACTION_INDEX r.index
        let refract_orig :=
          if Vec3.dot refract_dir info.normal < 0 then
            info.hit - Vec3.scale info.normal shadowEps
          else
            info.hit + Vec3.scale info.normal shadowEps
        Vec3.scale (Scene.cast_ray sq powf scene refract_orig refract_dir n) r.albedo
      | Option.none => 0
    let color_vec :=
      diffuse_color_vec + specular_color_vec + reflect_color_vec + refract_color_vec
    let mx : K := Vec3.compMax color_vec
    if 1 < mx then Vec3.divScalar color_vec mx else color_vec).getD backgroundColor

/-! ## `src/object.rs`: the older snapshot of the shading engine
(`test_scene_intersect`, lines 221-232, and `render_scene`, lines 234-344),
which takes the object and light collections as slices instead of a
`Scene`. -/

/-- `test_scene_intersect` (object.rs lines 221-232). -/
def test_scene_intersect [FloorRing K] (sq : K → K) (orig dir : Vec3 K)
    (objects : List (Object K)) : Option (IntersectionInfo K) :=
  let intersections :=
    objects.filterMap fun object => Object.ray_intersect sq object orig dir
  (intersections.mergeSort distDescending).getLast?

/-- `render_scene` (object.rs lines 234-344). -/
def render_scene [FloorRing K] (sq : K → K) (powf : K → K → K) :
    Vec3 K → Vec3 K → List (Object K) → List (Light K) → ℕ → Vec3 K
| _, _, _, _, 0 => backgroundColor
| orig, dir, objects, lights, n + 1 =>
  ((test_scene_intersect sq orig dir objects).bind fun info =>
    let dir := Vec3.normalize sq dir
    let filtered_lights := lights.filterMap fun light =>
      let raw_light_dir := light.position - info.hit
      let light_dir := Vec3.normalize sq raw_light_dir
      let light_dist := Vec3.norm sq raw_light_dir
      let shadow_orig :=
        if Vec3.dot light_dir info.normal < 0 then
          info.hit - Vec3.scale info.normal shadowEps
        else
          info.hit + Vec3.scale info.normal shadowEps
      match test_scene_intersect sq shadow_orig light_dir objects with
      | Option.some shadow_info =>
        if shadow_info.dist < light_dist then Option.none
        else Option.some (light_dir, light)
      | Option.none => Option.some (light_dir, light)
    let diffuse_color_vec :=
      match info.material.diffuse with
      | Option.some d =>
        let diffuse_intensity :=
          (filtered_lights.map fun p =>
            p.2.intensity * max 0 (Vec3.dot p.1 info.normal)).sum
        let raw_diffuse_color := match d.kind with | DiffuseKind.color c => c
        Vec3.scale (Vec3.scale raw_diffuse_color diffuse_intensity) d.albedo
      | Option.none => 0
    let specular_color_vec :=
      match info.material.specular with
      | Option.some s =>
        let specular_intensity :=
          (filtered_lights.map fun p =>
            let reflect_dir := reflect p.1 info.normal
            let angle := max 0 (Vec3.dot reflect_dir dir)
            p.2.intensity * powf angle s.specular_exp).sum
        Vec3.scale (Vec3.scale (⟨1, 1, 1⟩ : Vec3 K) specular_intensity) s.albedo
      | Option.none => 0
    let reflect_color_vec :=
      match info.material.reflect with
      | Option.some albedo_reflect =>
        let reflect_dir := reflect dir info.normal
        let reflect_orig :=
          if Vec3.dot reflect_dir info.normal < 0 then
            info.hit - Vec3.scale info.normal shadowEps
          else
            info.hit + Vec3.scale info.normal shadowEps
        Vec3.scale (render_scene sq powf reflect_orig reflect_dir objects lights n)
          albedo_reflect
      | Option.none => 0
    let refract_color_vec :=
      match info.material.refract with
      | Option.some r =>
        let refract_dir := refract sq dir info.normal AIR_REFRACTION_INDEX r.index
        let refract_orig :=
          if Vec3.dot refract_dir info.normal < 0 then
            info.hit - Vec3.scale info.normal shadowEps
          else
            info.hit + Vec3.scale info.normal shadowEps
        Vec3.scale (render_scene sq powf refract_orig refract_dir objects lights n)
          r.albedo
      | Option.none => 0
    let color_vec :=
      diffuse_color_vec + specular_color_vec + reflect_color_vec + refract_color_vec
    let mx : K := Vec3.compMax color_vec
    Option.some (if 1 < mx then Vec3.divScalar color_vec mx else color_vec)).getD backgroundColor

/-! ## Derived definitions used to state properties -/

/-- The truncated integer cell coordinates of a checkerboard ray: the pair
`(len_0 as u32, len_1 as u32)` of object.rs lines 180-186, recomputed from
the ray exactly as `Checkerboard::ray_intersect` computes it. -/
def Checkerboard.cellOf [FloorRing K] (sq : K → K) (c : Checkerboard K)
    (orig dir : Vec3 K) : ℕ × ℕ :=
  let p := orig - c.origin
  let n := Checkerboard.normal sq c
  let dir := Vec3.normalize sq dir
  let neg_dist := Vec3.dot n p / Vec3.dot n dir
  let hit := p - neg_dist • dir
  let len_0 := Vec3.dot hit c.cell_dir.1 / Vec3.dot c.cell_dir.1 c.cell_dir.1
  let len_1 := Vec3.dot hit c.cell_dir.2 / Vec3.dot c.cell_dir.2 c.cell_dir.2
  (floatToU32 len_0, floatToU32 len_1)

/-- Modelled from the spec, §4.4 (refraction formula), the branch taken once
the incidence cosine `cosI = -dot(i, n)` is known nonnegative: "compute
`eta = ni/nr` and `cosR² = 1 - eta²(1 - cosI²)`; if `cosR² < 0`, total
internal reflection occurs — return the *negated* mirror reflection of `i`
about `n`.  Otherwise return `i*eta + n*(eta*cosI - sqrt(cosR²))`". -/
def refractSpecPos (sq : K → K) (i n : Vec3 K) (ni nr : K) : Vec3 K :=
  let cosI := -(Vec3.dot i n)
  let eta := ni / nr
  let cosR2 := 1 - eta ^ 2 * (1 - cosI ^ 2)
  if cosR2 < 0 then -(reflect i n) else eta • i + (eta * cosI - sq cosR2) • n

/-- Modelled from the spec, §4.4: "let `cosI = -dot(i, n)`.  If `cosI < 0`,
the ray is exiting rather than entering — recurse with the normal flipped
and the indices swapped".  The flipped call's cosine is `-cosI > 0`, so the
recursion bottoms out after the single flip inlined here. -/
def refractSpec (sq : K → K) (i n : Vec3 K) (ni nr : K) : Vec3 K :=
  if -(Vec3.dot i n) < 0 then refractSpecPos sq i (-n) nr ni
  else refractSpecPos sq i n ni nr

/-- The direct recursive-call relation of `Scene::cast_ray`:
`CastRayCall sq scene child parent` holds when evaluating `cast_ray` at
`parent = (orig, dir, recursion_limit)` makes a direct recursive call at
`child`.  From scene.rs lines 115-148: a call happens only at a positive
depth budget, on a hit whose material carries the `reflect` (respectively
`refract`) component, toward the mirror-reflected (respectively refracted)
direction from the epsilon-offset origin, and always with depth budget
`recursion_limit - 1`. -/
inductive CastRayCall [FloorRing K] (sq : K → K) (scene : Scene K) :
    Vec3 K × Vec3 K × ℕ → Vec3 K × Vec3 K × ℕ → Prop where
| reflectCall (orig dir : Vec3 K) (n : ℕ) (info : IntersectionInfo K)
    (albedo_reflect : K)
    (hhit : Scene.test_intersect sq scene orig dir = Option.some info)
    (hmat : info.material.reflect = Option.some albedo_reflect) :
    CastRayCall sq scene
      ((if Vec3.dot (reflect (Vec3.normalize sq dir) info.normal) info.normal < 0 then
          info.hit - Vec3.scale info.normal shadowEps
        else info.hit + Vec3.scale info.normal shadowEps),
       reflect (Vec3.normalize sq dir) info.normal, n)
      (orig, dir, n + 1)
| refractCall (orig dir : Vec3 K) (n : ℕ) (info : IntersectionInfo K)
    (r : Refract K)
    (hhit : Scene.test_intersect sq scene orig dir = Option.some info)
    (hmat : info.material.refract = Option.some r) :
    CastRayCall sq scene
      ((if Vec3.dot (refract sq (Vec3.normalize sq dir) info.normal
            AIR_REFRACTION_INDEX r.index) info.normal < 0 then
          info.hit - Vec3.scale info.normal shadowEps
        else info.hit + Vec3.scale info.normal shadowEps),
       refract sq (Vec3.normalize sq dir) info.normal AIR_REFRACTION_INDEX r.index, n)
      (orig, dir, n + 1)

/-! ## Component-level unfolding lemmas for the `Vec3` instances -/

theorem vadd_def (v w : Vec3 K) : v + w = ⟨v.x + w.x, v.y + w.y, v.z + w.z⟩ := rfl

theorem vsub_def (v w : Vec3 K) : v - w = ⟨v.x - w.x, v.y - w.y, v.z - w.z⟩ := rfl

theorem vneg_def (v : Vec3 K) : -v = ⟨-v.x, -v.y, -v.z⟩ := rfl

theorem vzero_def : (0 : Vec3 K) = ⟨0, 0, 0⟩ := rfl

theorem vsmul_def (c : K) (v : Vec3 K) : c • v = ⟨c * v.x, c * v.y, c * v.z⟩ := rfl

theorem dot_neg_right (v w : Vec3 K) : Vec3.dot v (-w) = -(Vec3.dot v w) := by
  simp only [Vec3.dot, vneg_def]
  ring

/-! ## C1 -/

/-- C1: for every scene and every ray, `cast_ray(origin, direction,
depth_budget)` returns exactly the background color `[0.2, 0.7, 0.8]` when
`depth_budget == 0` (before even testing intersection) or when no object of
the scene intersects the ray (`test_intersect` returns `None`); in
particular (see the witness) it returns that color for every ray in an
empty scene. -/
theorem cast_ray_terminal_background {K : Type} [LinearOrderedField K] [FloorRing K]
    (sq : K → K) (powf : K → K → K) :
    (∀ (scene : Scene K) (orig dir : Vec3 K) (n : ℕ),
      n = 0 ∨ Scene.test_intersect sq scene orig dir = Option.none →
      Scene.cast_ray sq powf scene orig dir n = backgroundColor)
    ∧ (∀ (lights : List (Light K)) (orig dir : Vec3 K) (n : ℕ),
      Scene.cast_ray sq powf ⟨[], lights⟩ orig dir n = backgroundColor) := by
  have hmain : ∀ (scene : Scene K) (orig dir : Vec3 K) (n : ℕ),
      n = 0 ∨ Scene.test_intersect sq scene orig dir = Option.none →
      Scene.cast_ray sq powf scene orig dir n = backgroundColor := by
    intro scene orig dir n h
    cases n with
    | zero => rfl
    | succ n =>
      rcases h with h | h
      · exact absurd h (Nat.succ_ne_zero n)
      · simp only [Scene.cast_ray, h, Option.map_none', Option.getD_none]
  refine ⟨hmain, ?_⟩
  intro lights orig dir n
  exact hmain _ _ _ _ (Or.inr (by simp [Scene.test_intersect, List.mergeSort_nil]))

/-- Witness for C1 at a concrete input: the empty scene (no objects at
all) with a positive depth budget, over `ℚ`. -/
theorem cast_ray_terminal_background_witness :
    Scene.cast_ray Rat.sqrt (fun a _ => a) (⟨[], []⟩ : Scene ℚ)
      ⟨0, 0, 0⟩ ⟨0, 0, -1⟩ 4 = backgroundColor :=
  (cast_ray_terminal_background Rat.sqrt (fun a _ => a)).1 _ _ _ 4
    (Or.inr (by simp [Scene.test_intersect, List.mergeSort_nil]))

/-! ## C2 -/

/-- C2: `refract(i, n, ni, nr)` equals the reference definition of spec
§4.4: when `cosI = -dot(i, n) < 0` it equals `refract(i, -n, nr, ni)` (the
normal flipped, the indices swapped), and in general it equals
`refractSpec`, the definition transcribed from the spec's words (which
covers the remaining cases: `-reflect(i, n)` under total internal
reflection, `i*eta + n*(eta*cosI - sqrt(cosR²))` otherwise). -/
theorem refract_matches_spec {K : Type} [LinearOrderedField K]
    (sq : K → K) (i n : Vec3 K) (ni nr : K) :
    (-(Vec3.dot i n) < 0 → refract sq i n ni nr = refract sq i (-n) nr ni)
    ∧ refract sq i n ni nr = refractSpec sq i n ni nr := by
  have hpos : ∀ (m : Vec3 K) (a b : K), refractPos sq i m a b = refractSpecPos sq i m a b := by
    intro m a b
    simp only [refractPos, refractSpecPos, pow_two]
    split
    · rfl
    · simp only [Vec3.scale, vsmul_def, vadd_def, Vec3.mk.injEq]
      refine ⟨by ring, by ring, by ring⟩
  constructor
  · intro h
    have hflip : ¬ -(Vec3.dot i (-n)) < 0 := by
      rw [dot_neg_right, neg_neg]
      linarith
    rw [refract, if_pos h, refract, if_neg hflip]
  · rw [refract, refractSpec]
    split
    · exact hpos (-n) nr ni
    · exact hpos n ni nr

/-- Witness for C2 at a concrete input (normal incidence, matched indices,
over `ℚ`): the code's `refract` and the spec's formula agree. -/
theorem refract_matches_spec_witness :
    refract Rat.sqrt ⟨0, 0, -1⟩ ⟨0, 0, 1⟩ 1 1 =
      refractSpec Rat.sqrt ⟨0, 0, -1⟩ ⟨0, 0, 1⟩ 1 1 :=
  (refract_matches_spec Rat.sqrt ⟨0, 0, -1⟩ ⟨0, 0, 1⟩ 1 1).2

/-! ## C4 -/

/-- C4: every `IntersectionInfo` returned by `ray_intersect` of either
variant (Sphere or Checkerboard) has `dist ≥ 0`; candidate intersections
lying behind the ray origin are rejected (the guards return `None` rather
than a negative-distance hit). -/
theorem ray_intersect_dist_nonneg {K : Type} [LinearOrderedField K] [FloorRing K]
    (sq : K → K) (o : Object K) (orig dir : Vec3 K) (info : IntersectionInfo K)
    (h : Object.ray_intersect sq o orig dir = Option.some info) :
    0 ≤ info.dist := by
  cases o with
  | sphere s =>
    simp only [Object.ray_intersect, Sphere.ray_intersect] at h
    split_ifs at h
    all_goals cases h
    all_goals exact not_lt.mp (by assumption)
  | checkerboard c =>
    simp only [Object.ray_intersect, Checkerboard.ray_intersect] at h
    split_ifs at h
    all_goals cases h
    all_goals exact (neg_pos.mpr (not_le.mp (by assumption))).le

/-- Witness for C4 at a concrete input, over `ℚ`: a sphere of radius 3
centered at `[0,0,-6]`, hit from the origin at distance 3. -/
theorem ray_intersect_dist_nonneg_witness :
    Object.ray_intersect Rat.sqrt (Object.sphere ⟨⟨0, 0, -6⟩, 3, Material.none⟩)
        ⟨0, 0, 0⟩ ⟨0, 0, -1⟩ =
      Option.some ⟨3, ⟨0, 0, -3⟩, ⟨0, 0, 1⟩, Material.none⟩
    ∧ (0 : ℚ) ≤ (⟨3, ⟨0, 0, -3⟩, ⟨0, 0, 1⟩, Material.none⟩ : IntersectionInfo ℚ).dist :=
  ⟨by norm_num [Object.ray_intersect, Sphere.ray_intersect, Vec3.normalize, Vec3.divScalar, Vec3.norm,
      Vec3.dot, Vec3.scale, vadd_def, vsub_def, vneg_def, vsmul_def, Rat.sqrt],
   ray_intersect_dist_nonneg Rat.sqrt (Object.sphere ⟨⟨0, 0, -6⟩, 3, Material.none⟩)
     ⟨0, 0, 0⟩ ⟨0, 0, -1⟩ _
     (by norm_num [Object.ray_intersect, Sphere.ray_intersect, Vec3.normalize, Vec3.divScalar, Vec3.norm,
       Vec3.dot, Vec3.scale, vadd_def, vsub_def, vneg_def, vsmul_def, Rat.sqrt])⟩

/-! ## C5 -/

/-- C5: `Sphere::ray_intersect` from origin `[0,0,0]` toward `[0,0,-1]`
against a sphere centered at `[0,0,-16]` with radius 2 (any material `m`)
hits at distance 14, hit point `[0,0,-14]`, normal `[0,0,1]`.  Stated over
`ℚ` with the exact square root (both square-root arguments arising in this
computation, 1 and 4, are perfect squares, where `f32::sqrt` is exact).  -/
theorem sphere_ray_intersect_unit_case (m : Material ℚ) :
    Sphere.ray_intersect Rat.sqrt ⟨⟨0, 0, -16⟩, 2, m⟩ ⟨0, 0, 0⟩ ⟨0, 0, -1⟩ =
      Option.some ⟨14, ⟨0, 0, -14⟩, ⟨0, 0, 1⟩, m⟩ := by
  norm_num [Sphere.ray_intersect, Vec3.normalize, Vec3.divScalar, Vec3.norm, Vec3.dot, Vec3.scale,
    vadd_def, vsub_def, vneg_def, vsmul_def, Rat.sqrt]

/-! ## C3 -/

/-- In a list that is pairwise descending by `dist`, the last element has
the minimum `dist`. -/
theorem getLast?_dist_min {K : Type} [LinearOrderedField K] :
    ∀ (l : List (IntersectionInfo K)) (a : IntersectionInfo K),
      l.Pairwise (fun p q => q.dist ≤ p.dist) → l.getLast? = Option.some a →
      ∀ b ∈ l, a.dist ≤ b.dist := by
  intro l
  induction l with
  | nil => intro a _ hl; simp at hl
  | cons hd tl ih =>
    intro a hp hl b hb
    rcases List.pairwise_cons.mp hp with ⟨hhd, htl⟩
    cases tl with
    | nil =>
      have ha : hd = a := by simpa using hl
      have hbh : b = hd := by simpa using hb
      rw [← ha, hbh]
    | cons hd2 tl2 =>
      rw [List.getLast?_cons_cons] at hl
      have hmem : a ∈ hd2 :: tl2 := by
        rcases List.mem_getLast?_eq_getLast (Option.mem_def.mpr hl) with ⟨hne, ha⟩
        exact ha ▸ List.getLast_mem hne
      rcases List.mem_cons.mp hb with rfl | hb2
      · exact hhd a hmem
      · exact ih a htl hl b hb2

/-- C3: `Scene::test_intersect` returns `None` when no object's
`ray_intersect` reports a hit, and otherwise returns one of the reported
hits, whose distance is the minimum distance over all of them. -/
theorem test_intersect_min {K : Type} [LinearOrderedField K] [FloorRing K]
    (sq : K → K) (scene : Scene K) (orig dir : Vec3 K) :
    (scene.objects.filterMap (fun o => Object.ray_intersect sq o orig dir) = [] →
      Scene.test_intersect sq scene orig dir = Option.none)
    ∧ (scene.objects.filterMap (fun o => Object.ray_intersect sq o orig dir) ≠ [] →
      ∃ info, Scene.test_intersect sq scene orig dir = Option.some info ∧
        info ∈ scene.objects.filterMap (fun o => Object.ray_intersect sq o orig dir) ∧
        ∀ other ∈ scene.objects.filterMap (fun o => Object.ray_intersect sq o orig dir),
          info.dist ≤ other.dist) := by
  have htrans : ∀ a b c : IntersectionInfo K,
      distDescending a b = true → distDescending b c = true →
      distDescending a c = true := by
    intro a b c hab hbc
    simp only [distDescending, decide_eq_true_eq] at *
    exact le_trans hbc hab
  have htotal : ∀ a b : IntersectionInfo K,
      (distDescending a b || distDescending b a) = true := by
    intro a b
    simp only [distDescending, Bool.or_eq_true, decide_eq_true_eq]
    exact le_total b.dist a.dist
  constructor
  · intro h
    rw [Scene.test_intersect, h, List.mergeSort_nil]
    rfl
  · intro h
    have hperm := List.mergeSort_perm
      (scene.objects.filterMap (fun o => Object.ray_intersect sq o orig dir)) distDescending
    have hsorted := List.sorted_mergeSort htrans htotal
      (scene.objects.filterMap (fun o => Object.ray_intersect sq o orig dir))
    have hne : (scene.objects.filterMap
        (fun o => Object.ray_intersect sq o orig dir)).mergeSort distDescending ≠ [] := by
      intro hnil
      rw [hnil] at hperm
      exact h hperm.nil_eq.symm
    obtain hlast := List.getLast?_eq_getLast_of_ne_nil hne
    refine ⟨_, hlast, ?_, ?_⟩
    · exact hperm.mem_iff.mp (List.getLast_mem hne)
    · intro other hother
      have hs : ((scene.objects.filterMap
          (fun o => Object.ray_intersect sq o orig dir)).mergeSort distDescending).Pairwise
            (fun p q => q.dist ≤ p.dist) := by
        refine hsorted.imp ?_
        intro p q hpq
        simpa only [distDescending, decide_eq_true_eq] using hpq
      exact getLast?_dist_min _ _ hs hlast other (hperm.mem_iff.mpr hother)

/-- Witness for C3 at a concrete input, over `ℚ`: a scene of two spheres
straddling the ray, whose nearer hit (distance 3) is returned. -/
theorem test_intersect_min_witness :
    ∃ info, Scene.test_intersect Rat.sqrt
        (⟨[Object.sphere ⟨⟨0, 0, -16⟩, 2, Material.none⟩,
           Object.sphere ⟨⟨0, 0, -6⟩, 3, Material.none⟩], []⟩ : Scene ℚ)
        ⟨0, 0, 0⟩ ⟨0, 0, -1⟩ = Option.some info ∧
      info ∈ ((⟨[Object.sphere ⟨⟨0, 0, -16⟩, 2, Material.none⟩,
           Object.sphere ⟨⟨0, 0, -6⟩, 3, Material.none⟩], []⟩ : Scene ℚ)).objects.filterMap
          (fun o => Object.ray_intersect Rat.sqrt o ⟨0, 0, 0⟩ ⟨0, 0, -1⟩) ∧
      ∀ other ∈ ((⟨[Object.sphere ⟨⟨0, 0, -16⟩, 2, Material.none⟩,
           Object.sphere ⟨⟨0, 0, -6⟩, 3, Material.none⟩], []⟩ : Scene ℚ)).objects.filterMap
          (fun o => Object.ray_intersect Rat.sqrt o ⟨0, 0, 0⟩ ⟨0, 0, -1⟩),
        info.dist ≤ other.dist :=
  (test_intersect_min Rat.sqrt
      (⟨[Object.sphere ⟨⟨0, 0, -16⟩, 2, Material.none⟩,
         Object.sphere ⟨⟨0, 0, -6⟩, 3, Material.none⟩], []⟩ : Scene ℚ)
      ⟨0, 0, 0⟩ ⟨0, 0, -1⟩).2
    (by norm_num [Object.ray_intersect, Sphere.ray_intersect, Vec3.normalize, Vec3.divScalar, Vec3.norm,
      Vec3.dot, Vec3.scale, vadd_def, vsub_def, vneg_def, vsmul_def, Rat.sqrt,
      List.filterMap, List.cons_ne_nil])

/-! ## C6 -/

/-- C6: for every sphere and every ray whose origin lies strictly inside
the sphere, with a non-zero direction and with `sq` a genuine square root
on nonnegative inputs, `Sphere::ray_intersect` returns `Some` hit — never
`None` — and the hit is the far intersection `dir_len + segment_len`
(the near root being negative, the algorithm falls back to the far root,
which is non-negative). -/
theorem sphere_inside_ray_hits {K : Type} [LinearOrderedField K]
    (sq : K → K) (s : Sphere K) (orig dir : Vec3 K)
    (hsq : ∀ x : K, 0 ≤ x → 0 ≤ sq x ∧ sq x * sq x = x)
    (hr : 0 < s.radius)
    (hin : Vec3.dot (s.center - orig) (s.center - orig) < s.radius * s.radius)
    (hdir : dir ≠ 0) :
    ∃ info, Sphere.ray_intersect sq s orig dir = Option.some info ∧
      info.dist =
        Vec3.dot (s.center - orig) (Vec3.normalize sq dir) +
          sq (s.radius * s.radius -
            (Vec3.dot (s.center - orig) (s.center - orig) -
              Vec3.dot (s.center - orig) (Vec3.normalize sq dir) *
                Vec3.dot (s.center - orig) (Vec3.normalize sq dir))) := by
  simp only [Sphere.ray_intersect]
  set d1 := Vec3.normalize sq dir with hd1
  set dl := Vec3.dot (s.center - orig) d1 with hdl
  set vv := Vec3.dot (s.center - orig) (s.center - orig) with hvv
  have hdl2 : 0 ≤ dl * dl := mul_self_nonneg dl
  have hargpos : 0 ≤ s.radius * s.radius - (vv - dl * dl) := by linarith
  obtain ⟨hseg0, hseg2⟩ := hsq _ hargpos
  set seg := sq (s.radius * s.radius - (vv - dl * dl)) with hseg
  have hnotdist : ¬ (vv - dl * dl > s.radius * s.radius) := by linarith
  have hnear : dl - seg < 0 := by
    by_contra hcon
    push_neg at hcon
    have h1 : seg ≤ dl := by linarith
    have h2 : seg * seg ≤ dl * dl := mul_le_mul h1 h1 hseg0 (le_trans hseg0 h1)
    rw [hseg2] at h2
    linarith
  have hfar : ¬ (dl + seg < 0) := by
    intro hcon
    have h1 : seg < -dl := by linarith
    have h2 : seg * seg < dl * dl := by nlinarith
    rw [hseg2] at h2
    linarith
  rw [if_neg hnotdist, if_pos hnear, if_neg hfar]
  exact ⟨_, rfl, rfl⟩

/-- Witness for C6 at a concrete input, over `ℝ` with the real square
root: the unit sphere about the origin, shot from its center. -/
theorem sphere_inside_ray_hits_witness :
    ∃ info, Sphere.ray_intersect Real.sqrt ⟨⟨0, 0, 0⟩, 1, Material.none⟩
      ⟨0, 0, 0⟩ ⟨0, 0, -1⟩ = Option.some info :=
  Exists.imp (fun _ h => h.1)
    (sphere_inside_ray_hits Real.sqrt ⟨⟨0, 0, 0⟩, 1, Material.none⟩ ⟨0, 0, 0⟩ ⟨0, 0, -1⟩
      (fun x hx => ⟨Real.sqrt_nonneg x, Real.mul_self_sqrt hx⟩)
      one_pos
      (by norm_num [Vec3.dot, vsub_def])
      (by simp [vzero_def]))

/-! ## C7 -/

/-- C7: every `Checkerboard` hit resolves its material by the parity of
the sum of the truncated integer cell coordinates: the first material
exactly on even parity, the second on odd parity (so rays landing in cells
adjacent along either basis direction resolve to the two different
materials — see the witness, which exercises cells `(0,0)` and `(1,0)` of
a `(10,10)` board carrying two distinct materials). -/
theorem checkerboard_parity_selects {K : Type} [LinearOrderedField K] [FloorRing K]
    (sq : K → K) (c : Checkerboard K) (orig dir : Vec3 K) (info : IntersectionInfo K)
    (h : Checkerboard.ray_intersect sq c orig dir = Option.some info) :
    info.material =
      if ((Checkerboard.cellOf sq c orig dir).1 +
          (Checkerboard.cellOf sq c orig dir).2) % 2 = 0
      then c.material.1 else c.material.2 := by
  simp only [Checkerboard.ray_intersect] at h
  split at h
  · cases h
  · split at h
    · cases h
    · cases h
      simp only [Checkerboard.cellOf]

/-- Witness for C7 at a concrete input, over `ℚ`: on the board with
origin `[0,0,0]`, basis `[1,0,0]` and `[0,1,0]`, dims `(10,10)` and the
two (distinct) checker materials of `main.rs`, the ray landing in cell
`(0,0)` resolves to the first material, the ray landing in the adjacent
cell `(1,0)` resolves to the second, and the two materials differ. -/
theorem checkerboard_parity_selects_witness :
    (Checkerboard.ray_intersect Rat.sqrt
        ⟨⟨0, 0, 0⟩, (⟨1, 0, 0⟩, ⟨0, 1, 0⟩), (10, 10),
          (Material.color ⟨1, 1, 1⟩ (2/5), Material.color ⟨1, 7/10, 3/10⟩ (2/5))⟩
        ⟨1/2, 1/2, 1⟩ ⟨0, 0, -1⟩).map (fun i => i.material) =
      Option.some (Material.color ⟨1, 1, 1⟩ (2/5))
    ∧ (Checkerboard.ray_intersect Rat.sqrt
        ⟨⟨0, 0, 0⟩, (⟨1, 0, 0⟩, ⟨0, 1, 0⟩), (10, 10),
          (Material.color ⟨1, 1, 1⟩ (2/5), Material.color ⟨1, 7/10, 3/10⟩ (2/5))⟩
        ⟨3/2, 1/2, 1⟩ ⟨0, 0, -1⟩).map (fun i => i.material) =
      Option.some (Material.color ⟨1, 7/10, 3/10⟩ (2/5))
    ∧ Material.color (⟨1, 1, 1⟩ : Vec3 ℚ) (2/5) ≠ Material.color ⟨1, 7/10, 3/10⟩ (2/5) := by
  have h1 : Checkerboard.ray_intersect Rat.sqrt
      ⟨⟨0, 0, 0⟩, (⟨1, 0, 0⟩, ⟨0, 1, 0⟩), (10, 10),
        (Material.color ⟨1, 1, 1⟩ (2/5), Material.color ⟨1, 7/10, 3/10⟩ (2/5))⟩
      ⟨1/2, 1/2, 1⟩ ⟨0, 0, -1⟩ =
      Option.some ⟨1, ⟨1/2, 1/2, 0⟩, ⟨0, 0, 1⟩, Material.color ⟨1, 1, 1⟩ (2/5)⟩ := by
    norm_num [Checkerboard.ray_intersect, Checkerboard.normal, floatToU32, Vec3.normalize, Vec3.divScalar,
      Vec3.norm, Vec3.dot, Vec3.cross, Vec3.scale, vadd_def, vsub_def, vneg_def,
      vsmul_def, Rat.sqrt]
  have h2 : Checkerboard.ray_intersect Rat.sqrt
      ⟨⟨0, 0, 0⟩, (⟨1, 0, 0⟩, ⟨0, 1, 0⟩), (10, 10),
        (Material.color ⟨1, 1, 1⟩ (2/5), Material.color ⟨1, 7/10, 3/10⟩ (2/5))⟩
      ⟨3/2, 1/2, 1⟩ ⟨0, 0, -1⟩ =
      Option.some ⟨1, ⟨3/2, 1/2, 0⟩, ⟨0, 0, 1⟩, Material.color ⟨1, 7/10, 3/10⟩ (2/5)⟩ := by
    norm_num [Checkerboard.ray_intersect, Checkerboard.normal, floatToU32, Vec3.normalize, Vec3.divScalar,
      Vec3.norm, Vec3.dot, Vec3.cross, Vec3.scale, vadd_def, vsub_def, vneg_def,
      vsmul_def, Rat.sqrt]
  refine ⟨?_, ?_, by simp [Material.color]; norm_num⟩
  · rw [h1, Option.map_some', checkerboard_parity_selects _ _ _ _ _ h1]
    norm_num [Checkerboard.cellOf, Checkerboard.normal, floatToU32, Vec3.normalize, Vec3.divScalar,
      Vec3.norm, Vec3.dot, Vec3.cross, vsub_def, vneg_def, vsmul_def, Rat.sqrt]
  · rw [h2, Option.map_some', checkerboard_parity_selects _ _ _ _ _ h2]
    norm_num [Checkerboard.cellOf, Checkerboard.normal, floatToU32, Vec3.normalize, Vec3.divScalar,
      Vec3.norm, Vec3.dot, Vec3.cross, vsub_def, vneg_def, vsmul_def, Rat.sqrt]

/-! ## C9 -/

/-- C9: `cast_ray` terminates on every input.  The depth-0 case returns
immediately (first conjunct), every direct recursive call — reflection or
refraction — strictly decreases the depth budget from `recursion_limit`
to `recursion_limit - 1` (second conjunct), and therefore the
recursive-call relation is well-founded (third conjunct), so each ray's
bounded recursion tree completes. -/
theorem cast_ray_terminates {K : Type} [LinearOrderedField K] [FloorRing K]
    (sq : K → K) (powf : K → K → K) (scene : Scene K) :
    (∀ orig dir : Vec3 K, Scene.cast_ray sq powf scene orig dir 0 = backgroundColor)
    ∧ (∀ child parent, CastRayCall sq scene child parent → child.2.2 < parent.2.2)
    ∧ WellFounded (CastRayCall sq scene) := by
  have hdec : ∀ child parent, CastRayCall sq scene child parent →
      child.2.2 < parent.2.2 := by
    intro child parent h
    cases h with
    | reflectCall orig dir n info a hhit hmat => exact Nat.lt_succ_self n
    | refractCall orig dir n info r hhit hmat => exact Nat.lt_succ_self n
  have hwf : WellFounded (InvImage (fun a b : ℕ => a < b)
      (fun p : Vec3 K × Vec3 K × ℕ => p.2.2)) :=
    InvImage.wf _ Nat.lt_wfRel.wf
  refine ⟨fun _ _ => rfl, hdec, Subrelation.wf ?_ hwf⟩
  intro c p h
  exact hdec c p h

/-- A concrete recursion step for C9, over `ℚ`: a mirror sphere reflects
the primary ray once, and the theorem bounds the child's depth budget by
the parent's. -/
theorem cast_ray_terminates_witness :
    ∃ child parent : Vec3 ℚ × Vec3 ℚ × ℕ,
      CastRayCall Rat.sqrt
        (⟨[Object.sphere ⟨⟨0, 0, -16⟩, 2, Material.with_reflect Material.none (4/5)⟩],
          []⟩ : Scene ℚ) child parent
      ∧ child.2.2 < parent.2.2 := by
  have hhit : Scene.test_intersect Rat.sqrt
      (⟨[Object.sphere ⟨⟨0, 0, -16⟩, 2, Material.with_reflect Material.none (4/5)⟩],
        []⟩ : Scene ℚ) ⟨0, 0, 0⟩ ⟨0, 0, -1⟩ =
      Option.some ⟨14, ⟨0, 0, -14⟩, ⟨0, 0, 1⟩,
        Material.with_reflect Material.none (4/5)⟩ := by
    norm_num [Scene.test_intersect, Object.ray_intersect, Sphere.ray_intersect,
      Vec3.normalize, Vec3.divScalar, Vec3.norm, Vec3.dot, Vec3.scale, vadd_def, vsub_def, vneg_def,
      vsmul_def, Rat.sqrt, List.filterMap, List.mergeSort_singleton]
  have hcall := @CastRayCall.reflectCall ℚ _ _ Rat.sqrt
    (⟨[Object.sphere ⟨⟨0, 0, -16⟩, 2,
        Material.with_reflect Material.none (4/5)⟩], []⟩ : Scene ℚ)
    ⟨0, 0, 0⟩ ⟨0, 0, -1⟩ 3 _ (4/5) hhit rfl
  exact ⟨_, _, hcall,
    (cast_ray_terminates Rat.sqrt (fun a _ => a) _).2.1 _ _ hcall⟩

/-! ## C10 -/

/-- C10: the free function `render_scene` of object.rs and
`Scene::cast_ray` of scene.rs are behaviorally equivalent: on the same
object list, light list, ray and recursion limit they return the same
color. -/
theorem render_scene_eq_cast_ray {K : Type} [LinearOrderedField K] [FloorRing K]
    (sq : K → K) (powf : K → K → K) (objects : List (Object K))
    (lights : List (Light K)) :
    ∀ (n : ℕ) (orig dir : Vec3 K),
      render_scene sq powf orig dir objects lights n =
        Scene.cast_ray sq powf ⟨objects, lights⟩ orig dir n := by
  intro n
  induction n with
  | zero => intro orig dir; rfl
  | succ n ih =>
    intro orig dir
    have hts : ∀ o d : Vec3 K, test_scene_intersect sq o d objects =
        Scene.test_intersect sq ⟨objects, lights⟩ o d := fun _ _ => rfl
    simp only [render_scene, Scene.cast_ray, hts]
    cases htest : Scene.test_intersect sq ⟨objects, lights⟩ orig dir with
    | none => rfl
    | some info =>
      obtain ⟨dist, hitp, nrm, mat⟩ := info
      obtain ⟨df, sp, rf, rr⟩ := mat
      cases rf <;> cases rr
      all_goals try simp only [ih]
      all_goals rfl

end TinyRay
